import Mathlib

/-!
Shallow embedding of the solution and project parser from
src/slnprojparse/parsing.py together with the data model from
src/models/model.py, and proofs about it.

Conventions of the embedding:
* Filesystem paths are plain strings using forward slashes; every path the
  environment lists is assumed to be in resolved absolute form.
* The filesystem and the XML and text readers are packaged in an `Env`
  record: the Python code consults them through `pathlib` and
  `xml.etree.ElementTree`, which are external to the repository.
* Fallible Python code is modelled with `Except PErr`; the unbounded
  recursion of `parse_proj` is modelled with an explicit fuel argument, the
  fuel-exhaustion error being an artefact that sufficient fuel avoids.
-/

namespace SlnProjParse

/-- Language enumeration from src/models/model.py (class Language). -/
inductive Language where
  | CSharp
  | FSharp
  | VB
  | Python
  | Java
  | JavaScript
  | CSProject
  | VBProject
  | Empty
deriving DecidableEq, Repr

/-- CodeFile dataclass from src/models/model.py. -/
structure CodeFile where
  file_name : String
  full_path : String
  language : Language
deriving DecidableEq, Repr

/-- Project dataclass from src/models/model.py: a recursive tree of
projects.  Fields in source order: full_path, project_folder_path, name,
code_files, child_projects. -/
inductive Project where
  | mk (full_path : String) (project_folder_path : String) (name : String)
      (code_files : List CodeFile) (child_projects : List Project) : Project

/-- Field accessor for Project.full_path. -/
def Project.full_path : Project → String
  | .mk fp _ _ _ _ => fp

/-- Field accessor for Project.project_folder_path. -/
def Project.project_folder_path : Project → String
  | .mk _ pf _ _ _ => pf

/-- Field accessor for Project.name. -/
def Project.name : Project → String
  | .mk _ _ n _ _ => n

/-- Field accessor for Project.code_files. -/
def Project.code_files : Project → List CodeFile
  | .mk _ _ _ cf _ => cf

/-- Field accessor for Project.child_projects. -/
def Project.child_projects : Project → List Project
  | .mk _ _ _ _ ch => ch

/-- Solution dataclass from src/models/model.py. -/
structure Solution where
  full_path : String
  solution_name : String
  projects : List Project

/-- SolutionSet dataclass from src/models/model.py. -/
structure SolutionSet where
  start_path : String
  solutions : List Solution

/-- Python exceptions that the embedded code can raise.
`notFound` models FileNotFoundError (a subclass of OSError) raised by
parse_proj for a missing project file; `typeError` models the TypeError
raised by CPython when `Project(file_name=..., full_path=...)` is called at
parsing.py line 147, because the Project dataclass declares no `file_name`
parameter and has further required parameters; `fuel` is the artefact of
the fuel-bounded embedding of the recursion. -/
inductive PErr where
  | notFound (p : String)
  | typeError
  | fuel
deriving DecidableEq, Repr

/-- Abstraction of a parsed project XML document: the `Include` attribute
of every Compile element found by `root.findall(".//Compile")` in document
order (`none` when the element has no Include attribute), the same for
ProjectReference elements, and the `Sdk` attribute of the root element. -/
structure ProjXml where
  compiles : List (Option String)
  refs : List (Option String)
  sdk : Option String

/-- Result of opening and iterating a solution file as UTF-8 text.
`ok` is a fully decoded file, split into lines; `failOpen` models open()
raising OSError before any line is produced; `failMid lines` models the
line iteration raising OSError or UnicodeDecodeError after the given
initial run of lines was already yielded. -/
inductive SlnReadResult where
  | ok (lines : List String)
  | failOpen
  | failMid (lines : List String)

/-- The environment: the filesystem and file readers that the Python code
reaches through pathlib, open() and xml.etree.ElementTree.  `files` lists
the resolved paths of existing regular files (in filesystem enumeration
order, as rglob would walk them), `dirs` the resolved paths of existing
directories, `xml` gives the parsed project XML of a file, and `slnRead`
the outcome of reading a file as UTF-8 text lines. -/
structure Env where
  files : List String
  dirs : List String
  xml : String → ProjXml
  slnRead : String → SlnReadResult

/-- Existence test for a regular file, as pathlib Path.is_file reports on
this environment. -/
def Env.isFile (env : Env) (p : String) : Prop :=
  p ∈ env.files

instance (env : Env) (p : String) : Decidable (env.isFile p) :=
  inferInstanceAs (Decidable (p ∈ env.files))

/-! ### Character-list and string utilities -/

/-- Whether the first list is a leading segment of the second. -/
def charListStarts : List Char → List Char → Bool
  | [], _ => true
  | _ :: _, [] => false
  | p :: ps, c :: cs => p = c && charListStarts ps cs

/-- Whether the first list occurs as a contiguous segment of the second. -/
def charListHas (needle : List Char) : List Char → Bool
  | [] => needle.isEmpty
  | c :: cs => charListStarts needle (c :: cs) || charListHas needle cs

/-- Python substring containment: `needle in hay`. -/
def strHas (hay needle : String) : Bool :=
  charListHas needle.data hay.data

/-- Python str.startswith. -/
def strStarts (hay lead : String) : Bool :=
  charListStarts lead.data hay.data

/-- Python str.endswith, also the effect of an fnmatch pattern of the form
star-dot-extension on a file name. -/
def strEnds (hay tail : String) : Bool :=
  charListStarts tail.data.reverse hay.data.reverse

/-- Index of the last occurrence of a character, scanning with a running
index; models Python str.rfind restricted to single characters. -/
def lastIdxOfAux (c : Char) : List Char → Nat → Option Nat
  | [], _ => none
  | x :: xs, i =>
    match lastIdxOfAux c xs (i + 1) with
    | some j => some j
    | none => if x = c then some i else none

/-- Index of the last occurrence of a character in a character list. -/
def lastIdxOf (l : List Char) (c : Char) : Option Nat :=
  lastIdxOfAux c l 0

/-- The extension component of os.path.splitext (posixpath._splitext): the
suffix starting at the last dot, provided that dot lies after the last
slash and at least one character between the start of the base name and
that dot is not itself a dot (leading dots of the base name never begin an
extension). -/
def splitextExt (s : String) : String :=
  let l := s.data
  match lastIdxOf l '.' with
  | none => ""
  | some d =>
    let fi : Nat :=
      match lastIdxOf l '/' with
      | none => 0
      | some si => si + 1
    if fi ≤ d ∧ ((l.drop fi).take (d - fi)).any (fun ch => ch ≠ '.') then
      String.mk (l.drop d)
    else ("")

/-- The suffix of a file name as pathlib PurePath.suffix computes it: the
segment from the last dot, provided the dot is neither the first nor the
last character of the name. -/
def pathSuffix (nm : String) : String :=
  let l := nm.data
  match lastIdxOf l '.' with
  | none => ""
  | some i => if 0 < i ∧ i + 1 < l.length then String.mk (l.drop i) else ("")

/-- pathlib PurePath.stem: the file name with its suffix removed. -/
def stemOf (nm : String) : String :=
  String.mk (nm.data.take (nm.data.length - (pathSuffix nm).data.length))

/-! ### Path arithmetic

The embedding treats every path as an absolute POSIX path; pathlib
Path.resolve is modelled as purely syntactic normalization (the
environments considered contain no symbolic links and the current working
directory never enters, since the code resolves only absolute inputs or
joins against already-resolved parents). -/

/-- ASCII lowercasing of a string, character by character; the Python
str.lower calls in the code only ever act on ASCII extensions. -/
def strToLower (s : String) : String :=
  String.mk (s.data.map Char.toLower)

/-- Backslash-to-slash normalization: `str(p).replace(chr(92), chr(47))`
as performed at the top of parse_proj and on solution line paths;
replacing a one-character needle is a character map. -/
def normSlashes (s : String) : String :=
  String.mk (s.data.map (fun c => if c = '\\' then '/' else c))

/-- Split a character list at every slash, keeping empty components; the
accumulator holds the current component reversed. -/
def splitSlashAux : List Char → List Char → List String
  | [], cur => [String.mk cur.reverse]
  | '/' :: rest, cur => String.mk cur.reverse :: splitSlashAux rest []
  | c :: rest, cur => splitSlashAux rest (c :: cur)

/-- str.split on slash, keeping empty components. -/
def splitAllOnSlash (s : String) : List String :=
  splitSlashAux s.data []

/-- Split a path on slashes, discarding empty components. -/
def splitPath (s : String) : List String :=
  (splitAllOnSlash s).filter (fun c => c ≠ "")

/-- Join components with slash separators. -/
def joinSlashAux : List String → List Char
  | [] => []
  | [x] => x.data
  | x :: y :: xs => x.data ++ '/' :: joinSlashAux (y :: xs)

/-- String.intercalate with a slash separator. -/
def joinSlash (l : List String) : String :=
  String.mk (joinSlashAux l)

/-- Process path components, interpreting single-dot as a no-op and
double-dot as removing the last accumulated component, as Path.resolve
does above the root. -/
def resolveComps (acc : List String) : List String → List String
  | [] => acc
  | "." :: rest => resolveComps acc rest
  | ".." :: rest => resolveComps acc.dropLast rest
  | c :: rest => resolveComps (acc ++ [c]) rest

/-- pathlib Path.resolve on an absolute path: syntactic normalization. -/
def resolvePath (s : String) : String :=
  "/" ++ joinSlash (resolveComps [] (splitPath s))

/-- pathlib Path.parent rendered as a string. -/
def parentDir (s : String) : String :=
  "/" ++ joinSlash ((splitPath s).dropLast)

/-- pathlib Path.name, also os.path.basename on the resolved paths the
code applies it to. -/
def baseName (s : String) : String :=
  ((splitPath s).getLast?).getD ("")

/-- pathlib path join: an absolute right operand replaces the left one. -/
def joinPath (base child : String) : String :=
  if strStarts child ("/") then child else base ++ "/" ++ child

/-- The path normalization parse_proj applies to its argument: replace
backslashes, rebuild a Path, and resolve it. -/
def canonPath (s : String) : String :=
  resolvePath (normSlashes s)

/-- str(pathlib.PurePosixPath(s)): splitting on slashes, dropping empty
and single-dot components, and rejoining; the empty path renders as a
single dot.  (The special leading-double-slash form is not modelled.) -/
def pyPathStr (s : String) : String :=
  let comps := (splitAllOnSlash s).filter (fun c => c ≠ "" ∧ c ≠ ".")
  let lead := if strStarts s ("/") then ("/") else ("")
  if comps = [] then (if lead = "/" then ("/") else ("."))
  else lead ++ joinSlash comps

/-! ### Language detection -/

/-- Models _detect_language from parsing.py: lowercased-extension lookup with
Empty as the fallback. -/
def detect_language (file_name : String) : Language :=
  let ext := strToLower (splitextExt file_name)
  if ext = ".cs" then Language.CSharp
  else if ext = ".fs" then Language.FSharp
  else if ext = ".vb" then Language.VB
  else if ext = ".py" then Language.Python
  else if ext = ".java" then Language.Java
  else if ext = ".js" then Language.JavaScript
  else if ext = ".csproj" then Language.CSProject
  else if ext = ".vbproj" then Language.VBProject
  else Language.Empty

/-! ### The SDK fallback scanner -/

/-- Files under a folder, as a recursive glob starting at the folder would
enumerate them. -/
def underDir (folder f : String) : Bool :=
  strStarts f (folder ++ "/")

/-- The files a recursive glob for a star-dot extension pattern below a
folder yields, in the enumeration order of the environment. -/
def rglobExt (env : Env) (folder ext : String) : List String :=
  env.files.filter (fun f => underDir folder f && strEnds f ext)

/-- Models _get_sdk_files from parsing.py: recursively enumerate the cs files and
then the vb files of a project folder and wrap each as a CodeFile (the
project_Type argument of the Python function is unused beyond its
presence, so it is dropped here). -/
def get_sdk_files (env : Env) (proj_path : String) : List CodeFile :=
  let codeList := rglobExt env proj_path (".cs") ++ rglobExt env proj_path (".vb")
  codeList.map (fun cf_path =>
    CodeFile.mk (baseName cf_path) cf_path (detect_language (baseName cf_path)))

/-! ### parse_proj -/

/-- The Compile-element loop of parse_proj (parsing.py lines 132 to 151).
An element with no Include attribute or an empty one is skipped; a
non-existing resolved path is skipped; an existing path classifying as
CSharp or VB is appended as a CodeFile; an existing path classifying as
CSProject or VBProject reaches the construction
`Project(file_name=..., full_path=...)`, which raises TypeError because
the Project dataclass has no file_name parameter, so the whole call fails
(the child-project accumulator is threaded for structural fidelity but can
never grow). -/
def compile_items (env : Env) (folder : String) :
    List (Option String) → List CodeFile → List Project →
    Except PErr (List CodeFile × List Project)
  | [], cfs, cps => .ok (cfs, cps)
  | none :: rest, cfs, cps => compile_items env folder rest cfs cps
  | some inc :: rest, cfs, cps =>
    if inc = "" then compile_items env folder rest cfs cps
    else
      let src_path := resolvePath (joinPath folder inc)
      if env.isFile src_path then
        let lang := detect_language (baseName src_path)
        let cfs1 :=
          if lang = Language.CSharp ∨ lang = Language.VB then
            cfs ++ [CodeFile.mk (baseName src_path) src_path
              (detect_language (baseName src_path))]
          else cfs
        if lang = Language.CSProject ∨ lang = Language.VBProject then
          .error PErr.typeError
        else compile_items env folder rest cfs1 cps
      else compile_items env folder rest cfs cps

/-- The ProjectReference loop of parse_proj (parsing.py lines 157 to 167),
parameterized by the recursive call.  The visited set is shared: a child
path already present is skipped; otherwise it is added and the recursive
call receives the grown set and returns its further growth.  The caller
then extends the child list of the returned project with the returned
grandchildren; in Python those are the same list object, so the extend
doubles it, which the functional translation reproduces because the two
values are equal. -/
def refs_loop (parse : String → List String → Except PErr (Project × List Project × List String))
    (folder : String) :
    List (Option String) → List Project → List String →
    Except PErr (List Project × List String)
  | [], acc, visited => .ok (acc, visited)
  | none :: rest, acc, visited => refs_loop parse folder rest acc visited
  | some incl :: rest, acc, visited =>
    let child_path := resolvePath (joinPath folder incl)
    if child_path ∈ visited then refs_loop parse folder rest acc visited
    else
      match parse child_path (visited ++ [child_path]) with
      | .error e => .error e
      | .ok (child_proj, grandchildren, visited1) =>
        let child_proj1 := Project.mk child_proj.full_path
          child_proj.project_folder_path child_proj.name child_proj.code_files
          (child_proj.child_projects ++ grandchildren)
        refs_loop parse folder rest (acc ++ [child_proj1]) visited1

/-- parse_proj from parsing.py (lines 87 to 192), with explicit fuel for
the recursion and the visited set threaded explicitly in place of the
mutable Python set.  Returns the built Project, the flat list of its
direct children (which is also its child_projects value) and the visited
set as grown by the call. -/
def parse_proj (env : Env) : Nat → String → List String →
    Except PErr (Project × List Project × List String)
  | 0, _, _ => .error PErr.fuel
  | fuel + 1, proj_path0, visited =>
    let proj_path := canonPath proj_path0
    if env.isFile proj_path then
      let x := env.xml proj_path
      let folder := parentDir proj_path
      match compile_items env folder x.compiles [] [] with
      | .error e => .error e
      | .ok (code_files, child_projects0) =>
        match refs_loop (parse_proj env fuel) folder x.refs child_projects0 visited with
        | .error e => .error e
        | .ok (child_projects, visited1) =>
          let project_type :=
            match x.sdk with
            | some v => if v = "Microsoft.NET.Sdk" then ("dotNET_SDK") else ("UNKNOWN")
            | none => ("UNKNOWN")
          let collected_source_files :=
            if code_files.length < 1 ∧ project_type = "dotNET_SDK" then
              get_sdk_files env folder
            else code_files
          let proj_file_name := baseName proj_path
          let proj_folder_path := parentDir proj_path
          let proj_full_path := proj_folder_path ++ "/" ++ proj_file_name
          let project := Project.mk proj_full_path proj_folder_path
            (stemOf proj_file_name) collected_source_files child_projects
          .ok (project, child_projects, visited1)
    else .error (PErr.notFound proj_path)

/-- Models _process_child_project from parsing.py: overwrite the folder path of a
child with the resolved parent of its full path. -/
def process_child_project (child_project : Project) : Project :=
  Project.mk child_project.full_path
    (resolvePath (parentDir child_project.full_path)) child_project.name
    child_project.code_files child_project.child_projects

/-- Models _parse_project_file from parsing.py: run parse_proj with a fresh
visited set, fix up the folder paths of the immediate children, and
rebuild the top-level Project from the stem and parent of the given
path. -/
def parse_project_file (env : Env) (fuel : Nat) (proj_path : String) :
    Except PErr Project :=
  match parse_proj env fuel proj_path [] with
  | .error e => .error e
  | .ok (rootProj, childProj, _) =>
    let child_projects := childProj.map process_child_project
    let proj_folder_path := resolvePath (parentDir proj_path)
    let proj_full_path := proj_folder_path ++ "/" ++ baseName proj_path
    .ok (Project.mk proj_full_path proj_folder_path (stemOf (baseName proj_path))
      rootProj.code_files child_projects)

/-! ### The solution line matcher

_PROJECT_LINE_RE from parsing.py, an anchored regular expression applied
with re.match and the IGNORECASE and VERBOSE flags.  Because every
repeated class in the pattern excludes the character that follows it, the
greedy match never needs to backtrack and the pattern is equivalent to the
deterministic scanner below. -/

/-- Python regex whitespace class over ASCII. -/
def isSpaceChar (c : Char) : Bool :=
  c = ' ' || c = '\t' || c = '\n' || c = '\r' || c = '\x0b' || c = '\x0c'

/-- Consume a literal, comparing case-insensitively (the pattern carries
re.IGNORECASE); returns the rest of the input on success. -/
def litCI : List Char → List Char → Option (List Char)
  | [], l => some l
  | _ :: _, [] => none
  | p :: ps, c :: cs => if p.toLower = c.toLower then litCI ps cs else none

/-- Consume one or more characters different from the stop character,
returning them and the rest of the input. -/
def takeWhile1Not (stop : Char) (l : List Char) : Option (List Char × List Char) :=
  let taken := l.takeWhile (fun c => c ≠ stop)
  if taken.isEmpty then none else some (taken, l.drop taken.length)

/-- Consume a literal given as a string. -/
def expectCI (s : String) (l : List Char) : Option (List Char) :=
  litCI s.data l

/-- Consume a double-quoted field, capturing its non-empty body. -/
def quotedCapture (l : List Char) : Option (List Char × List Char) :=
  (expectCI ("\"") l).bind fun l1 =>
  (takeWhile1Not '"' l1).bind fun t =>
  (expectCI ("\"") t.2).map fun l2 => (t.1, l2)

/-- Match one solution line against _PROJECT_LINE_RE, returning the
captured display name and relative project path. -/
def matchProjectLine (line : String) : Option (String × String) :=
  (expectCI ("Project(\"\x7b") line.data).bind fun l0 =>
  (takeWhile1Not '\x7d' l0).bind fun g1 =>
  (expectCI ("\x7d\")") g1.2).bind fun l1 =>
  (expectCI ("=") (l1.dropWhile isSpaceChar)).bind fun l2 =>
  (quotedCapture (l2.dropWhile isSpaceChar)).bind fun nm =>
  (expectCI (",") (nm.2.dropWhile isSpaceChar)).bind fun l3 =>
  (quotedCapture (l3.dropWhile isSpaceChar)).bind fun pth =>
  (expectCI (",") (pth.2.dropWhile isSpaceChar)).bind fun l4 =>
  (expectCI ("\"\x7b") (l4.dropWhile isSpaceChar)).bind fun l5 =>
  (takeWhile1Not '\x7d' l5).bind fun g2 =>
  (expectCI ("\x7d\"") g2.2).map fun _ =>
  (String.mk nm.1, String.mk pth.1)

/-! ### The solution resolver -/

/-- The line loop of _parse_solution_file (parsing.py lines 277 to 291).
A matched line is forwarded to project resolution when the lowercased
path contains the characters dot-c-s-p-r-o-j or the path contains, case
sensitively, the characters dot-v-b-p-r-o-j.  A FileNotFoundError from
the resolution (an OSError) is caught by the surrounding try, aborting
the loop but keeping the projects collected so far; a TypeError (and the
fuel artefact) is not caught and propagates.  Returns the collected
projects paired with a propagating error, if any. -/
def solution_lines_loop (env : Env) (fuel : Nat) (slnDir : String) :
    List String → List Project → List Project × Option PErr
  | [], acc => (acc, none)
  | line :: rest, acc =>
    match matchProjectLine line with
    | none => solution_lines_loop env fuel slnDir rest acc
    | some (_nm, raw) =>
      let sProj_path := pyPathStr (normSlashes raw)
      if strHas (strToLower sProj_path) (".csproj") || strHas sProj_path (".vbproj") then
        match parse_project_file env fuel (resolvePath (joinPath slnDir sProj_path)) with
        | .ok project => solution_lines_loop env fuel slnDir rest (acc ++ [project])
        | .error (PErr.notFound _) => (acc, none)
        | .error e => (acc, some e)
      else solution_lines_loop env fuel slnDir rest acc

/-- Models _parse_solution_file from parsing.py (lines 253 to 296).  The try
block wraps the whole read loop: an OSError or UnicodeDecodeError while
opening or while iterating the lines is logged and the Solution built so
far is returned, with whatever projects were appended before the
failure. -/
def parse_solution_file (env : Env) (fuel : Nat) (sln_path : String) :
    Except PErr Solution :=
  let solution_name := baseName sln_path
  let solution_root := resolvePath (parentDir sln_path)
  let finish : List Project × Option PErr → Except PErr Solution := fun r =>
    match r with
    | (projs, none) => .ok (Solution.mk solution_root solution_name projs)
    | (_, some e) => .error e
  match env.slnRead sln_path with
  | .failOpen => .ok (Solution.mk solution_root solution_name [])
  | .ok lines => finish (solution_lines_loop env fuel (parentDir sln_path) lines [])
  | .failMid lines => finish (solution_lines_loop env fuel (parentDir sln_path) lines [])

/-! ### The discovery driver -/

/-- Path.rglob for solution files: pathlib selectors return an empty
iterator when the base of the glob is not a directory, and otherwise walk
the tree yielding entries whose name matches the pattern. -/
def rglob_sln (env : Env) (base : String) : List String :=
  if base ∈ env.dirs then
    (env.files ++ env.dirs).filter (fun f => underDir base f && strEnds f (".sln"))
  else []

/-- The loop of discover_solution_set: resolve every found solution file
in order, propagating uncaught exceptions. -/
def discover_loop (env : Env) (fuel : Nat) :
    List String → List Solution → Except PErr (List Solution)
  | [], acc => .ok acc
  | s :: rest, acc =>
    match parse_solution_file env fuel s with
    | .ok sol => discover_loop env fuel rest (acc ++ [sol])
    | .error e => .error e

/-- discover_solution_set from parsing.py (lines 302 to 320): resolve the
start path, glob for solution files beneath it and resolve each into a
Solution. -/
def discover_solution_set (env : Env) (fuel : Nat) (start_path : String) :
    Except PErr SolutionSet :=
  let sp := resolvePath start_path
  match discover_loop env fuel (rglob_sln env sp) [] with
  | .ok sols => .ok (SolutionSet.mk sp sols)
  | .error e => .error e

/-! ### Tree observations -/

mutual

/-- Number of nodes of a project tree whose full path equals the given
string. -/
def countPath (target : String) : Project → Nat
  | .mk fp _ _ _ children =>
    (if fp = target then 1 else 0) + countPathList target children

/-- countPath summed over a forest. -/
def countPathList (target : String) : List Project → Nat
  | [] => 0
  | p :: ps => countPath target p + countPathList target ps

end

/-! ### Concrete environments used by witnesses and counterexamples -/

/-- A project XML with no Compile elements, no ProjectReference elements
and no Sdk attribute. -/
def emptyXml : ProjXml := ProjXml.mk [] [] none

/-- An environment with no files at all. -/
def envEmpty : Env :=
  Env.mk [] [] (fun _ => emptyXml) (fun _ => SlnReadResult.failOpen)

/-! ### C5: a missing project file is a propagated hard failure -/

/-- C5: when the normalized and resolved project path is not an existing
file, parse_proj fails with the NotFound error naming that path, and the
failure propagates unchanged to its immediate caller
_parse_project_file. -/
theorem C5_missing_project_file_raises (env : Env) (fuel : Nat)
    (path : String) (visited : List String)
    (h : ¬ env.isFile (canonPath path)) :
    parse_proj env (fuel + 1) path visited =
      .error (PErr.notFound (canonPath path)) ∧
    parse_project_file env (fuel + 1) path =
      .error (PErr.notFound (canonPath path)) := by
  have h1 : parse_proj env (fuel + 1) path visited =
      .error (PErr.notFound (canonPath path)) := by
    simp [parse_proj, h]
  have h2 : parse_proj env (fuel + 1) path [] =
      .error (PErr.notFound (canonPath path)) := by
    simp [parse_proj, h]
  exact ⟨h1, by simp [parse_project_file, h2]⟩

/-- Witness for C5 at a concrete input: the empty filesystem has no file
at the resolved path, and parse_proj reports exactly that path. -/
theorem C5_missing_project_file_raises_witness :
    parse_proj envEmpty 1 ("/w/A.csproj") [] =
      .error (PErr.notFound ("/w/A.csproj")) ∧
    parse_project_file envEmpty 1 ("/w/A.csproj") =
      .error (PErr.notFound ("/w/A.csproj")) := by
  have h := C5_missing_project_file_raises envEmpty 0 ("/w/A.csproj") []
    (by decide)
  have hc : canonPath ("/w/A.csproj") = "/w/A.csproj" := by decide
  rw [hc] at h
  exact h

/-! ### C8: the language classifier is a total lowercased-extension table -/

/-- C8: for every file name the classifier yields exactly one Language by
looking up the lowercased splitext extension in the fixed table, with
Empty for every extension outside the table (including the empty
extension).  Totality is inherent: detect_language is a total function. -/
theorem C8_detect_language_table (name : String) :
    (strToLower (splitextExt name) = ".cs" →
      detect_language name = Language.CSharp) ∧
    (strToLower (splitextExt name) = ".fs" →
      detect_language name = Language.FSharp) ∧
    (strToLower (splitextExt name) = ".vb" →
      detect_language name = Language.VB) ∧
    (strToLower (splitextExt name) = ".py" →
      detect_language name = Language.Python) ∧
    (strToLower (splitextExt name) = ".java" →
      detect_language name = Language.Java) ∧
    (strToLower (splitextExt name) = ".js" →
      detect_language name = Language.JavaScript) ∧
    (strToLower (splitextExt name) = ".csproj" →
      detect_language name = Language.CSProject) ∧
    (strToLower (splitextExt name) = ".vbproj" →
      detect_language name = Language.VBProject) ∧
    (strToLower (splitextExt name) ∉
        ([".cs", ".fs", ".vb", ".py", ".java", ".js", ".csproj", ".vbproj"] :
          List String) →
      detect_language name = Language.Empty) := by
  refine ⟨?_, ?_, ?_, ?_, ?_, ?_, ?_, ?_, ?_⟩ <;>
    · intro h
      simp only [detect_language, h]
      simp_all [detect_language]

/-- Witness for C8 at concrete inputs: an unknown extension falls through
the table to Empty, and a known extension in mixed case is classified. -/
theorem C8_detect_language_table_witness :
    detect_language ("Foo.xyz") = Language.Empty ∧
    detect_language ("Foo.CS") = Language.CSharp := by
  refine ⟨(C8_detect_language_table ("Foo.xyz")).2.2.2.2.2.2.2.2 (by decide),
    (C8_detect_language_table ("Foo.CS")).1 (by decide)⟩

/-! ### C10: discovery rooted at a solution file finds nothing -/

/-- C10: when the resolved start path is an existing solution file and not
a directory, the recursive glob of discover_solution_set yields nothing
(pathlib globbing below a non-directory is empty), so the returned
SolutionSet carries the resolved start path and no solutions. -/
theorem C10_discovery_at_sln_file_empty (env : Env) (fuel : Nat)
    (path : String)
    (hd : resolvePath path ∉ env.dirs)
    (_hf : resolvePath path ∈ env.files)
    (_he : strEnds (resolvePath path) (".sln") = true) :
    discover_solution_set env fuel path =
      .ok (SolutionSet.mk (resolvePath path) []) := by
  simp [discover_solution_set, rglob_sln, hd, discover_loop]

/-- Witness for C10 at a concrete input: a filesystem holding exactly one
solution file, with discovery started at that file itself. -/
def envC10 : Env :=
  Env.mk ["/s/App.sln"] ["/s"] (fun _ => emptyXml)
    (fun _ => SlnReadResult.failOpen)

/-- Witness for C10: discovery rooted at the existing file /s/App.sln
returns no solutions. -/
theorem C10_discovery_at_sln_file_empty_witness :
    discover_solution_set envC10 9 ("/s/App.sln") =
      .ok (SolutionSet.mk ("/s/App.sln") []) := by
  have h := C10_discovery_at_sln_file_empty envC10 9 ("/s/App.sln")
    (by decide) (by decide) (by decide)
  have hc : resolvePath ("/s/App.sln") = "/s/App.sln" := by decide
  rw [hc] at h
  exact h

/-! ### C3: a Compile item that is itself a project file -/

/-- The Compile-element loop splits over list concatenation: the items of
the first part are processed first, and an error there short-circuits. -/
theorem compile_items_append (env : Env) (fld : String)
    (pre post : List (Option String)) (cfs : List CodeFile)
    (cps : List Project) :
    compile_items env fld (pre ++ post) cfs cps =
      match compile_items env fld pre cfs cps with
      | .ok (a, b) => compile_items env fld post a b
      | .error e => .error e := by
  induction pre generalizing cfs cps with
  | nil => simp [compile_items]
  | cons hd tl ih =>
    cases hd with
    | none => simpa [compile_items] using ih cfs cps
    | some inc =>
      by_cases hinc : inc = ""
      · simpa [compile_items, hinc] using ih cfs cps
      · simp only [List.cons_append, compile_items, if_neg hinc]
        by_cases hf : env.isFile (resolvePath (joinPath fld inc))
        · simp only [if_pos hf]
          by_cases hl :
              detect_language (baseName (resolvePath (joinPath fld inc))) =
                  Language.CSProject ∨
                detect_language (baseName (resolvePath (joinPath fld inc))) =
                  Language.VBProject
          · simp [hl]
          · simp only [if_neg hl]
            exact ih _ _
        · simp only [if_neg hf]
          exact ih _ _

/-- Counterexample to C3: a project whose only Compile item names an
existing file classifying as CSProject.  The claim says parse_proj
succeeds and recursively resolves the item as a nested project; the code
instead fails, because the construction
`Project(file_name=..., full_path=...)` at parsing.py line 147 passes an
argument the Project dataclass does not declare. -/
def envC3 : Env :=
  Env.mk ["/w/A.csproj", "/w/B.csproj"] ["/w"]
    (fun p =>
      if p = "/w/A.csproj" then ProjXml.mk [some ("B.csproj")] [] none
      else emptyXml)
    (fun _ => SlnReadResult.failOpen)

/-- Counterexample to C3: the premise of the claim holds (the Compile
include resolves to an existing file whose extension classifies as
CSProject), yet parse_proj raises TypeError instead of succeeding. -/
theorem C3_compile_item_project_counterexample :
    parse_proj envC3 5 ("/w/A.csproj") [] = .error PErr.typeError ∧
    envC3.isFile ("/w/B.csproj") ∧
    detect_language ("B.csproj") = Language.CSProject := by
  exact ⟨by rfl, by decide, by rfl⟩

/-- C3 amended: a Compile item whose Include attribute resolves to an
existing file classifying as CSProject or VBProject makes parse_proj fail
with a TypeError (the child-Project construction passes a file_name
keyword the Project dataclass does not accept); the item is neither
recorded as a CodeFile nor recursively resolved. -/
theorem C3_compile_item_project_raises (env : Env) (fuel : Nat)
    (path : String) (visited : List String)
    (pre post : List (Option String)) (inc : String)
    (acc : List CodeFile × List Project)
    (hf : env.isFile (canonPath path))
    (hx : (env.xml (canonPath path)).compiles = pre ++ some inc :: post)
    (hpre : compile_items env (parentDir (canonPath path)) pre [] [] = .ok acc)
    (hinc : inc ≠ "")
    (hsrc : env.isFile
      (resolvePath (joinPath (parentDir (canonPath path)) inc)))
    (hlang :
      detect_language
          (baseName (resolvePath (joinPath (parentDir (canonPath path)) inc))) =
        Language.CSProject ∨
      detect_language
          (baseName (resolvePath (joinPath (parentDir (canonPath path)) inc))) =
        Language.VBProject) :
    parse_proj env (fuel + 1) path visited = .error PErr.typeError := by
  have hstep : compile_items env (parentDir (canonPath path))
      (pre ++ some inc :: post) [] [] = .error PErr.typeError := by
    rw [compile_items_append, hpre]
    obtain ⟨a, b⟩ := acc
    rcases hlang with h | h <;> simp [compile_items, hinc, hsrc, h]
  simp [parse_proj, hf, hx, hstep]

/-- Witness for C3 amended at a concrete input: the TypeError surfaces
already with minimal fuel since no recursion is reached. -/
theorem C3_compile_item_project_raises_witness :
    parse_proj envC3 1 ("/w/A.csproj") [] = .error PErr.typeError := by
  exact C3_compile_item_project_raises envC3 0 ("/w/A.csproj") [] [] []
    ("B.csproj") ([], []) (by decide) (by rfl) (by rfl) (by decide)
    (by decide) (Or.inl (by rfl))

/-! ### C9: dangling Compile items are silently skipped -/

/-- Every CodeFile the Compile-element loop emits records an existing
file, provided the files already accumulated do. -/
theorem compile_items_files_exist (env : Env) (fld : String)
    (items : List (Option String)) (cfs : List CodeFile)
    (cps : List Project) (out : List CodeFile × List Project)
    (hok : compile_items env fld items cfs cps = .ok out)
    (hacc : ∀ cf ∈ cfs, env.isFile cf.full_path) :
    ∀ cf ∈ out.1, env.isFile cf.full_path := by
  induction items generalizing cfs cps with
  | nil =>
    simp only [compile_items, Except.ok.injEq] at hok
    subst hok
    exact hacc
  | cons hd tl ih =>
    cases hd with
    | none =>
      simp only [compile_items] at hok
      exact ih _ _ hok hacc
    | some inc =>
      by_cases hinc : inc = ""
      · simp only [compile_items, if_pos hinc] at hok
        exact ih _ _ hok hacc
      · simp only [compile_items, if_neg hinc] at hok
        by_cases hf : env.isFile (resolvePath (joinPath fld inc))
        · simp only [if_pos hf] at hok
          by_cases hl :
              detect_language (baseName (resolvePath (joinPath fld inc))) =
                  Language.CSProject ∨
                detect_language (baseName (resolvePath (joinPath fld inc))) =
                  Language.VBProject
          · simp [hl] at hok
          · simp only [if_neg hl] at hok
            refine ih _ _ hok ?_
            by_cases hcs :
                detect_language (baseName (resolvePath (joinPath fld inc))) =
                    Language.CSharp ∨
                  detect_language (baseName (resolvePath (joinPath fld inc))) =
                    Language.VB
            · simp only [if_pos hcs]
              intro cf hcf
              rcases List.mem_append.mp hcf with h | h
              · exact hacc cf h
              · simp only [List.mem_singleton] at h
                subst h
                exact hf
            · simp only [if_neg hcs]
              exact hacc
        · simp only [if_neg hf] at hok
          exact ih _ _ hok hacc

/-- Every CodeFile the SDK fallback scanner emits records an existing
file. -/
theorem get_sdk_files_files_exist (env : Env) (folder : String) :
    ∀ cf ∈ get_sdk_files env folder, env.isFile cf.full_path := by
  intro cf hcf
  simp only [get_sdk_files, rglobExt, List.mem_map, List.mem_append,
    List.mem_filter] at hcf
  obtain ⟨p, hp, hcf⟩ := hcf
  subst hcf
  rcases hp with ⟨hp, _⟩ | ⟨hp, _⟩ <;> exact hp

/-- C9: a Compile item whose resolved include path does not exist on disk
is skipped without error and contributes nothing (first conjunct), and
consequently every CodeFile of a successfully parsed project records an
existing file, so the dangling item is absent from the result (second
conjunct). -/
theorem C9_dangling_compile_item_skipped :
    (∀ (env : Env) (fld inc : String) (rest : List (Option String))
      (cfs : List CodeFile) (cps : List Project),
      inc ≠ "" → ¬ env.isFile (resolvePath (joinPath fld inc)) →
      compile_items env fld (some inc :: rest) cfs cps =
        compile_items env fld rest cfs cps) ∧
    (∀ (env : Env) (fuel : Nat) (path : String) (visited : List String)
      (proj : Project) (ch : List Project) (vis : List String),
      parse_proj env fuel path visited = .ok (proj, ch, vis) →
      ∀ cf ∈ proj.code_files, env.isFile cf.full_path) := by
  constructor
  · intro env fld inc rest cfs cps hinc hf
    simp [compile_items, hinc, hf]
  · intro env fuel path visited proj ch vis hok cf hcf
    cases fuel with
    | zero => simp [parse_proj] at hok
    | succ fuel =>
      simp only [parse_proj] at hok
      by_cases hfile : env.isFile (canonPath path)
      · rw [if_pos hfile] at hok
        revert hok
        split
        · intro hok
          exact absurd hok (by simp)
        · next code_files cps0 heqc =>
          split
          · intro hok
            exact absurd hok (by simp)
          · next children vis1 heqr =>
            intro hok
            simp only [Except.ok.injEq, Prod.mk.injEq] at hok
            obtain ⟨hproj, _, _⟩ := hok
            subst hproj
            simp only [Project.code_files] at hcf
            revert hcf
            split
            · intro hcf
              exact get_sdk_files_files_exist env _ cf hcf
            · intro hcf
              exact compile_items_files_exist env _ _ [] [] _ heqc
                (by intro x hx; simp at hx) cf hcf
      · rw [if_neg hfile] at hok
        exact absurd hok (by simp)

/-- Environment for the C9 witness: one project listing a dangling
Compile item and an existing one. -/
def envC9 : Env :=
  Env.mk ["/w/A.csproj", "/w/Real.cs"] ["/w"]
    (fun p =>
      if p = "/w/A.csproj" then
        ProjXml.mk [some ("Missing.cs"), some ("Real.cs")] [] none
      else emptyXml)
    (fun _ => SlnReadResult.failOpen)

/-- Witness for C9 at concrete inputs: the dangling item steps to the
rest of the list unchanged, and the code file recorded by the successful
parse exists on disk. -/
theorem C9_dangling_compile_item_skipped_witness :
    compile_items envC9 ("/w") [some ("Missing.cs")] [] [] =
      compile_items envC9 ("/w") [] [] [] ∧
    envC9.isFile ("/w/Real.cs") := by
  refine ⟨C9_dangling_compile_item_skipped.1 envC9 ("/w") ("Missing.cs") []
    [] [] (by decide) (by decide), ?_⟩
  exact C9_dangling_compile_item_skipped.2 envC9 1 ("/w/A.csproj") []
    (Project.mk ("/w/A.csproj") ("/w") ("A")
      [CodeFile.mk ("Real.cs") ("/w/Real.cs") Language.CSharp] []) [] []
    (by rfl)
    (CodeFile.mk ("Real.cs") ("/w/Real.cs") Language.CSharp) (by decide)

/-! ### C6: the SDK fallback scan replaces an empty Compile collection -/

/-- C6: when a parse succeeds on a project whose root element carries
Sdk equal to Microsoft.NET.Sdk and whose Compile elements produced no
CodeFiles, the code_files of the result are exactly the recursive
enumeration of the cs files followed by the vb files beneath the project
folder, each wrapped as a CodeFile classified by the language
detector. -/
theorem C6_sdk_fallback_scans_folder (env : Env) (fuel : Nat)
    (path : String) (visited : List String) (proj : Project)
    (ch : List Project) (vis : List String) (cps0 : List Project)
    (hok : parse_proj env fuel path visited = .ok (proj, ch, vis))
    (hsdk : (env.xml (canonPath path)).sdk = some ("Microsoft.NET.Sdk"))
    (hcomp : compile_items env (parentDir (canonPath path))
      (env.xml (canonPath path)).compiles [] [] = .ok ([], cps0)) :
    proj.code_files =
      ((env.files.filter (fun f =>
          underDir (parentDir (canonPath path)) f && strEnds f (".cs"))) ++
        (env.files.filter (fun f =>
          underDir (parentDir (canonPath path)) f && strEnds f (".vb")))).map
        (fun p => CodeFile.mk (baseName p) p (detect_language (baseName p))) := by
  cases fuel with
  | zero => simp [parse_proj] at hok
  | succ fuel =>
    simp only [parse_proj] at hok
    by_cases hfile : env.isFile (canonPath path)
    · rw [if_pos hfile, hcomp] at hok
      simp only [hsdk] at hok
      revert hok
      split
      · intro hok
        exact absurd hok (by simp)
      · intro hok
        simp only [Except.ok.injEq, Prod.mk.injEq] at hok
        obtain ⟨hproj, _, _⟩ := hok
        subst hproj
        simp [Project.code_files, get_sdk_files, rglobExt]
    · rw [if_neg hfile] at hok
      exact absurd hok (by simp)

/-- Environment for the C6 witness: an SDK-style project with no Compile
elements whose folder holds Program.cs and Helpers/Util.cs. -/
def envC6 : Env :=
  Env.mk ["/w/App.csproj", "/w/Program.cs", "/w/Helpers/Util.cs"]
    ["/w", "/w/Helpers"]
    (fun p =>
      if p = "/w/App.csproj" then ProjXml.mk [] [] (some ("Microsoft.NET.Sdk"))
      else emptyXml)
    (fun _ => SlnReadResult.failOpen)

/-- Witness for C6 at a concrete input: both files on disk appear,
classified as CSharp, although no XML element named them. -/
theorem C6_sdk_fallback_scans_folder_witness :
    (Project.mk ("/w/App.csproj") ("/w") ("App")
        [CodeFile.mk ("Program.cs") ("/w/Program.cs") Language.CSharp,
          CodeFile.mk ("Util.cs") ("/w/Helpers/Util.cs") Language.CSharp]
        []).code_files =
      ((envC6.files.filter (fun f =>
          underDir (parentDir (canonPath ("/w/App.csproj"))) f &&
            strEnds f (".cs"))) ++
        (envC6.files.filter (fun f =>
          underDir (parentDir (canonPath ("/w/App.csproj"))) f &&
            strEnds f (".vb")))).map
        (fun p => CodeFile.mk (baseName p) p (detect_language (baseName p))) := by
  exact C6_sdk_fallback_scans_folder envC6 2 ("/w/App.csproj") []
    (Project.mk ("/w/App.csproj") ("/w") ("App")
      [CodeFile.mk ("Program.cs") ("/w/Program.cs") Language.CSharp,
        CodeFile.mk ("Util.cs") ("/w/Helpers/Util.cs") Language.CSharp] [])
    [] [] [] (by rfl) (by rfl) (by rfl)

/-! ### C2: a two-project reference cycle terminates and is truncated -/

/-- C2: for any two distinct project files that reference each other,
resolution from the first terminates with a result independent of the
fuel bound (any bound of at least three suffices, which rules out
unbounded recursion), the tree of the first project contains the second
exactly once, and every nested copy of the first project below the second
has an empty child collection (the cycle is cut at the second visit,
because the first project is put on the visited set when descending into
it from the second). -/
theorem C2_mutual_cycle_terminates (env : Env) (a b incB incA : String)
    (hca : canonPath a = a) (hcb : canonPath b = b)
    (hab : a ≠ b)
    (hfa : env.isFile a) (hfb : env.isFile b)
    (hxa : env.xml a = ProjXml.mk [] [some incB] none)
    (hxb : env.xml b = ProjXml.mk [] [some incA] none)
    (hjb : resolvePath (joinPath (parentDir a) incB) = b)
    (hja : resolvePath (joinPath (parentDir b) incA) = a)
    (hfpa : parentDir a ++ "/" ++ baseName a = a)
    (hfpb : parentDir b ++ "/" ++ baseName b = b) :
    ∃ T B1 : Project,
      (∀ n : Nat, parse_proj env (n + 3) a [] = .ok (T, [B1], [b, a])) ∧
      T.full_path = a ∧
      T.child_projects = [B1] ∧
      B1.full_path = b ∧
      countPath b T = 1 ∧
      (∀ q ∈ B1.child_projects, q.full_path = a ∧ q.child_projects = []) := by
  refine ⟨Project.mk a (parentDir a) (stemOf (baseName a)) []
      [Project.mk b (parentDir b) (stemOf (baseName b)) []
        [Project.mk a (parentDir a) (stemOf (baseName a)) [] [],
          Project.mk a (parentDir a) (stemOf (baseName a)) [] []]],
    Project.mk b (parentDir b) (stemOf (baseName b)) []
      [Project.mk a (parentDir a) (stemOf (baseName a)) [] [],
        Project.mk a (parentDir a) (stemOf (baseName a)) [] []],
    ?_, rfl, rfl, rfl, ?_, ?_⟩
  · intro n
    simp [parse_proj, refs_loop, compile_items, hca, hcb, hfa, hfb, hxa, hxb,
      hjb, hja, hab, hfpa, hfpb, Project.full_path,
      Project.project_folder_path, Project.name, Project.code_files,
      Project.child_projects]
  · simp [countPath, countPathList, hab]
  · intro q hq
    simp only [Project.child_projects, List.mem_cons, List.not_mem_nil,
      or_false] at hq
    rcases hq with h | h <;> subst h <;> exact ⟨rfl, rfl⟩

/-- Environment for the C2 witness: A and B reference each other. -/
def envC2 : Env :=
  Env.mk ["/w/A.csproj", "/w/B.csproj"] ["/w"]
    (fun p =>
      if p = "/w/A.csproj" then ProjXml.mk [] [some ("B.csproj")] none
      else if p = "/w/B.csproj" then ProjXml.mk [] [some ("A.csproj")] none
      else emptyXml)
    (fun _ => SlnReadResult.failOpen)

/-- Witness for C2 at a concrete input: the two-file cycle resolves at
every fuel bound of at least three, B appears once, and the nested copies
of A below B are childless. -/
theorem C2_mutual_cycle_terminates_witness :
    ∃ T B1 : Project,
      (∀ n : Nat, parse_proj envC2 (n + 3) ("/w/A.csproj") [] =
        .ok (T, [B1], ["/w/B.csproj", "/w/A.csproj"])) ∧
      T.full_path = "/w/A.csproj" ∧
      T.child_projects = [B1] ∧
      B1.full_path = "/w/B.csproj" ∧
      countPath ("/w/B.csproj") T = 1 ∧
      (∀ q ∈ B1.child_projects,
        q.full_path = "/w/A.csproj" ∧ q.child_projects = []) := by
  exact C2_mutual_cycle_terminates envC2 ("/w/A.csproj") ("/w/B.csproj")
    ("B.csproj") ("A.csproj") (by decide) (by decide) (by decide) (by decide)
    (by decide) (by rfl) (by rfl) (by decide) (by decide) (by decide)
    (by decide)

/-! ### C1: diamond references are not re-descended across siblings -/

/-- Environment for C1: the root references B and C; B and C both
reference D; the graph is acyclic. -/
def envC1 : Env :=
  Env.mk ["/w/R.csproj", "/w/B.csproj", "/w/C.csproj", "/w/D.csproj"] ["/w"]
    (fun p =>
      if p = "/w/R.csproj" then
        ProjXml.mk [] [some ("B.csproj"), some ("C.csproj")] none
      else if p = "/w/B.csproj" then ProjXml.mk [] [some ("D.csproj")] none
      else if p = "/w/C.csproj" then ProjXml.mk [] [some ("D.csproj")] none
      else emptyXml)
    (fun _ => SlnReadResult.failOpen)

/-- The resolved copy of D in the C1 environment. -/
def DtC1 : Project := Project.mk ("/w/D.csproj") ("/w") ("D") [] []

/-- The resolved copy of B in the C1 environment: its child list holds
the copy of D twice, because the caller extends the child list with the
grandchild list, which is the same list. -/
def BtC1 : Project := Project.mk ("/w/B.csproj") ("/w") ("B") [] [DtC1, DtC1]

/-- The resolved copy of C in the C1 environment: it has no children at
all, because D was already in the shared visited set when C was
resolved. -/
def CtC1 : Project := Project.mk ("/w/C.csproj") ("/w") ("C") [] []

/-- Counterexample to C1: in the diamond, the claim requires an
independent copy of the D subtree under both B and C; the code gives C no
children at all, because the visited set is shared across siblings of one
top-level call and never shrinks, so it skips paths resolved by an
earlier sibling, not only paths on the current ancestor stack. -/
theorem C1_diamond_counterexample :
    parse_proj envC1 5 ("/w/R.csproj") [] =
      .ok (Project.mk ("/w/R.csproj") ("/w") ("R") [] [BtC1, CtC1],
        [BtC1, CtC1],
        ["/w/B.csproj", "/w/D.csproj", "/w/C.csproj"]) ∧
    CtC1.full_path = "/w/C.csproj" ∧
    countPath ("/w/D.csproj") CtC1 = 0 := by
  refine ⟨by rfl, by rfl, ?_⟩
  simp [CtC1, countPath, countPathList]

/-- C1 amended: in a diamond resolved by one top-level parse_proj call,
only the first-resolved sibling B re-descends into D (and then holds the
copy of D twice, through the grandchild-list aliasing of the extend);
when C is resolved, D is already in the visited set, which is shared
across the whole top-level call and never shrinks, so the copy of C has
no children: a path visited earlier anywhere in the call is skipped, not
only a path on the current ancestor stack. -/
theorem C1_diamond_skips_across_siblings (env : Env)
    (r b c d incB incC incD1 incD2 : String)
    (hcr : canonPath r = r) (hcb : canonPath b = b)
    (hcc : canonPath c = c) (hcd : canonPath d = d)
    (hfr : env.isFile r) (hfb : env.isFile b)
    (hfc : env.isFile c) (hfd : env.isFile d)
    (hxr : env.xml r = ProjXml.mk [] [some incB, some incC] none)
    (hxb : env.xml b = ProjXml.mk [] [some incD1] none)
    (hxc : env.xml c = ProjXml.mk [] [some incD2] none)
    (hxd : env.xml d = ProjXml.mk [] [] none)
    (hjb : resolvePath (joinPath (parentDir r) incB) = b)
    (hjc : resolvePath (joinPath (parentDir r) incC) = c)
    (hjd1 : resolvePath (joinPath (parentDir b) incD1) = d)
    (hjd2 : resolvePath (joinPath (parentDir c) incD2) = d)
    (hdb : d ≠ b) (hcb2 : c ≠ b) (hcd2 : c ≠ d)
    (hfpr : parentDir r ++ "/" ++ baseName r = r)
    (hfpb : parentDir b ++ "/" ++ baseName b = b)
    (hfpc : parentDir c ++ "/" ++ baseName c = c)
    (hfpd : parentDir d ++ "/" ++ baseName d = d) :
    ∃ Bt Ct Dt : Project,
      (∀ n : Nat, parse_proj env (n + 3) r [] =
        .ok (Project.mk r (parentDir r) (stemOf (baseName r)) [] [Bt, Ct],
          [Bt, Ct], [b, d, c])) ∧
      Bt.full_path = b ∧ Ct.full_path = c ∧ Dt.full_path = d ∧
      Bt.child_projects = [Dt, Dt] ∧
      Ct.child_projects = [] ∧
      Dt.child_projects = [] := by
  refine ⟨Project.mk b (parentDir b) (stemOf (baseName b)) []
      [Project.mk d (parentDir d) (stemOf (baseName d)) [] [],
        Project.mk d (parentDir d) (stemOf (baseName d)) [] []],
    Project.mk c (parentDir c) (stemOf (baseName c)) [] [],
    Project.mk d (parentDir d) (stemOf (baseName d)) [] [],
    ?_, rfl, rfl, rfl, rfl, rfl, rfl⟩
  intro n
  simp [parse_proj, refs_loop, compile_items, hcr, hcb, hcc, hcd, hfr, hfb,
    hfc, hfd, hxr, hxb, hxc, hxd, hjb, hjc, hjd1, hjd2, hdb, hcb2, hcd2,
    hfpr, hfpb, hfpc, hfpd, Project.full_path, Project.project_folder_path,
    Project.name, Project.code_files, Project.child_projects]

/-- Witness for C1 amended at the concrete diamond: B holds the D copy
twice, C holds nothing. -/
theorem C1_diamond_skips_across_siblings_witness :
    ∃ Bt Ct Dt : Project,
      (∀ n : Nat, parse_proj envC1 (n + 3) ("/w/R.csproj") [] =
        .ok (Project.mk ("/w/R.csproj") ("/w") ("R") [] [Bt, Ct],
          [Bt, Ct], ["/w/B.csproj", "/w/D.csproj", "/w/C.csproj"])) ∧
      Bt.full_path = "/w/B.csproj" ∧ Ct.full_path = "/w/C.csproj" ∧
      Dt.full_path = "/w/D.csproj" ∧
      Bt.child_projects = [Dt, Dt] ∧
      Ct.child_projects = [] ∧
      Dt.child_projects = [] := by
  exact C1_diamond_skips_across_siblings envC1 ("/w/R.csproj")
    ("/w/B.csproj") ("/w/C.csproj") ("/w/D.csproj") ("B.csproj")
    ("C.csproj") ("D.csproj") ("D.csproj") (by decide) (by decide)
    (by decide) (by decide) (by decide) (by decide) (by decide) (by decide)
    (by rfl) (by rfl) (by rfl) (by rfl) (by rfl) (by rfl) (by rfl)
    (by rfl) (by decide) (by decide) (by decide) (by decide) (by decide)
    (by decide) (by decide)

/-! ### C4: which solution entries are forwarded to project resolution -/

/-- A solution line declaring the project Lib at the path Lib.VbProj,
whose extension matches vbproj only up to letter case. -/
def slnLineVb : String :=
  "Project(\"\x7bF184B08F-C81C-45F6-A57F-5ABD9991F28F\x7d\") = \"Lib\", \"Lib.VbProj\", \"\x7b2222\x7d\""

/-- Environment for the C4 counterexample: the solution declares
Lib.VbProj and that project file exists on disk. -/
def envC4 : Env :=
  Env.mk ["/s/App.sln", "/s/Lib.VbProj"] ["/s"]
    (fun _ => emptyXml)
    (fun p =>
      if p = "/s/App.sln" then SlnReadResult.ok [slnLineVb]
      else SlnReadResult.failOpen)

/-- Counterexample to C4: the entry path Lib.VbProj ends in vbproj
compared case-insensitively and its project file exists, yet the solution
resolver does not forward it (the returned Solution has no projects),
because the code tests the lowercased path only against csproj and tests
vbproj case-sensitively. -/
theorem C4_extension_filter_counterexample :
    parse_solution_file envC4 9 ("/s/App.sln") =
      .ok (Solution.mk ("/s") ("App.sln") []) ∧
    strEnds (strToLower ("Lib.VbProj")) (".vbproj") = true ∧
    envC4.isFile ("/s/Lib.VbProj") := by
  exact ⟨by rfl, by rfl, by decide⟩

/-- C4 amended: an extracted entry is forwarded to project resolution
exactly when its normalized path contains the substring csproj-with-dot
case-insensitively, or contains the substring vbproj-with-dot with that
exact lower case; containment anywhere in the path suffices, and entries
passing neither test are ignored. -/
theorem C4_forwarding_condition (env : Env) (fuel : Nat)
    (slnP line nm raw : String)
    (hread : env.slnRead slnP = .ok [line])
    (hmatch : matchProjectLine line = some (nm, raw)) :
    (strHas (strToLower (pyPathStr (normSlashes raw))) (".csproj") = false →
      strHas (pyPathStr (normSlashes raw)) (".vbproj") = false →
      parse_solution_file env fuel slnP =
        .ok (Solution.mk (resolvePath (parentDir slnP)) (baseName slnP) [])) ∧
    (∀ p : Project,
      (strHas (strToLower (pyPathStr (normSlashes raw))) (".csproj") = true ∨
        strHas (pyPathStr (normSlashes raw)) (".vbproj") = true) →
      parse_project_file env fuel
          (resolvePath (joinPath (parentDir slnP)
            (pyPathStr (normSlashes raw)))) = .ok p →
      parse_solution_file env fuel slnP =
        .ok (Solution.mk (resolvePath (parentDir slnP)) (baseName slnP) [p])) := by
  constructor
  · intro h1 h2
    simp [parse_solution_file, hread, solution_lines_loop, hmatch, h1, h2]
  · intro p hcond hp
    rcases hcond with h | h <;>
      simp [parse_solution_file, hread, solution_lines_loop, hmatch, h, hp]

/-- A solution line declaring the project lib at the all-lower-case path
lib.vbproj. -/
def slnLineVbLower : String :=
  "Project(\"\x7bF184B08F-C81C-45F6-A57F-5ABD9991F28F\x7d\") = \"lib\", \"lib.vbproj\", \"\x7b2222\x7d\""

/-- Environment for the C4 witness: the solution declares lib.vbproj in
lower case and that project file exists. -/
def envC4b : Env :=
  Env.mk ["/s/App.sln", "/s/lib.vbproj"] ["/s"]
    (fun _ => emptyXml)
    (fun p =>
      if p = "/s/App.sln" then SlnReadResult.ok [slnLineVbLower]
      else SlnReadResult.failOpen)

/-- The resolved lib project of the C4 witness environment. -/
def PLibC4 : Project := Project.mk ("/s/lib.vbproj") ("/s") ("lib") [] []

/-- Witness for C4 amended at a concrete input: the lower-case vbproj
entry is forwarded and its resolved project is appended. -/
theorem C4_forwarding_condition_witness :
    parse_solution_file envC4b 9 ("/s/App.sln") =
      .ok (Solution.mk ("/s") ("App.sln") [PLibC4]) := by
  have h := (C4_forwarding_condition envC4b 9 ("/s/App.sln") slnLineVbLower
    ("lib") ("lib.vbproj") (by rfl) (by rfl)).2 PLibC4 (Or.inr (by rfl))
    (by rfl)
  have e1 : resolvePath (parentDir ("/s/App.sln")) = "/s" := by decide
  have e2 : baseName ("/s/App.sln") = "App.sln" := by decide
  rw [e1, e2] at h
  exact h

/-! ### C7: failures reading a solution file are recovered -/

/-- A solution line declaring the project lib at the path lib.csproj. -/
def slnLineCs : String :=
  "Project(\"\x7bFAE04EC0-301F-11D3-BF4B-00C04F79EFBC\x7d\") = \"lib\", \"lib.csproj\", \"\x7b2222\x7d\""

/-- Environment for the C7 counterexample: reading the solution file
fails with a decode error only after the project line was already
yielded. -/
def envC7 : Env :=
  Env.mk ["/s/App.sln", "/s/lib.csproj"] ["/s"]
    (fun _ => emptyXml)
    (fun p =>
      if p = "/s/App.sln" then SlnReadResult.failMid [slnLineCs]
      else SlnReadResult.failOpen)

/-- The resolved lib project of the C7 counterexample environment. -/
def PLibC7 : Project := Project.mk ("/s/lib.csproj") ("/s") ("lib") [] []

/-- Counterexample to C7: a solution file that cannot be fully decoded as
UTF-8 (the read fails after one line) yields a Solution whose projects
collection is not empty: the projects resolved from the lines decoded
before the failure are kept, because the try block wraps the whole loop
and the function returns the partially filled Solution. -/
theorem C7_unreadable_sln_counterexample :
    parse_solution_file envC7 9 ("/s/App.sln") =
      .ok (Solution.mk ("/s") ("App.sln") [PLibC7]) ∧
    (Solution.mk ("/s") ("App.sln") [PLibC7]).projects ≠ [] := by
  exact ⟨by rfl, by simp⟩

/-- C7 amended: a failure opening or decoding the solution file never
propagates: the resolver returns a Solution carrying the folder path and
file name whose projects are those resolved from the lines decoded before
the failure; in particular the projects collection is empty when the file
cannot be opened at all. -/
theorem C7_read_failure_recovered (env : Env) (fuel : Nat) (p : String) :
    (env.slnRead p = .failOpen →
      parse_solution_file env fuel p =
        .ok (Solution.mk (resolvePath (parentDir p)) (baseName p) [])) ∧
    (∀ (lines : List String) (projs : List Project),
      env.slnRead p = .failMid lines →
      solution_lines_loop env fuel (parentDir p) lines [] = (projs, none) →
      parse_solution_file env fuel p =
        .ok (Solution.mk (resolvePath (parentDir p)) (baseName p) projs)) := by
  constructor
  · intro h
    simp [parse_solution_file, h]
  · intro lines projs h hloop
    simp [parse_solution_file, h, hloop]

/-- Environment for the C7 witness: the solution file cannot be opened at
all. -/
def envC7b : Env :=
  Env.mk ["/s/App.sln"] ["/s"] (fun _ => emptyXml)
    (fun _ => SlnReadResult.failOpen)

/-- Witness for C7 amended at a concrete input: an unopenable solution
file yields the empty-projects Solution, not an error. -/
theorem C7_read_failure_recovered_witness :
    parse_solution_file envC7b 9 ("/s/App.sln") =
      .ok (Solution.mk ("/s") ("App.sln") []) := by
  have h := (C7_read_failure_recovered envC7b 9 ("/s/App.sln")).1 (by rfl)
  have e1 : resolvePath (parentDir ("/s/App.sln")) = "/s" := by decide
  have e2 : baseName ("/s/App.sln") = "App.sln" := by decide
  rw [e1, e2] at h
  exact h

end SlnProjParse
